import Mathlib

/-!
Shallow embedding of the askmetwice data-collection scripts
(googlenews.py, newsquestions.py, factcheckquestions.py,
longtermquestions.py, questions.py, chatbots.py, internetarchive.py)
and proofs of the behavioural claims about them.

Python strings are embedded as `List Char`; Python dictionaries of string
values as association lists; machine-external effects (HTTP requests,
file writes, clock reads) are passed in as explicit parameters.
-/

namespace AskMeTwice

/-- Embedding of a Python `str` as a list of characters. -/
abbrev Str := List Char

/-! ## Python `str.split` / `str.join` (googlenews.py helpers)

`leadsWith sep s` is true when `sep` is an initial segment of `s`;
`breakOn sep s` finds the leftmost occurrence of `sep` in `s` and splits
around it (Python's `s.partition(sep)` restricted to the found case);
`splitSepFuel`/`splitSep` is Python's `s.split(sep)` for a non-empty
separator; `joinSep` is Python's `sep.join(parts)`. -/

def leadsWith : Str → Str → Bool
  | [], _ => true
  | _ :: _, [] => false
  | a :: as, b :: bs => if a = b then leadsWith as bs else false

def breakOn (sep : Str) : Str → Option (Str × Str)
  | [] => if leadsWith sep [] then some ([], ([] : Str).drop sep.length) else none
  | c :: rest =>
    if leadsWith sep (c :: rest) then some ([], (c :: rest).drop sep.length)
    else (breakOn sep rest).map (fun p => (c :: p.1, p.2))

def splitSepFuel (sep : Str) : Nat → Str → List Str
  | 0, s => [s]
  | fuel + 1, s =>
    match breakOn sep s with
    | none => [s]
    | some (a, b) => a :: splitSepFuel sep fuel b

/-- Python `s.split(sep)` for a non-empty separator `sep`. -/
def splitSep (sep s : Str) : List Str := splitSepFuel sep s.length s

/-- Python `sep.join(parts)`. -/
def joinSep (sep : Str) : List Str → Str
  | [] => []
  | [x] => x
  | x :: y :: rest => x ++ sep ++ joinSep sep (y :: rest)

/-- Whether `sep` occurs somewhere inside `s` (Python `sep in s`). -/
def containsSep (sep s : Str) : Bool := (breakOn sep s).isSome

/-! ## googlenews.py: split_titles / split_single_title -/

/-- Separator used by the Google News headline splitter: `" - "`. -/
def sepStr : Str := (" - ").data

/-- Titles whose news-outlet part itself contains one hyphen
(from googlenews.py, `one_hyphen_exceptions`). -/
def one_hyphen_exceptions : List Str :=
  [("ABC News - Breaking News, Latest News and Videos").data]

/-- Embedding of `split_single_title` from googlenews.py: splits a headline
`"[title] - [news outlet]"` into a (title, outlet) pair. -/
def split_single_title (title : Str) : Str × Str :=
  let parts := splitSep sepStr title
  if parts.length = 2 then
    (parts.getD 0 [], parts.getD 1 [])
  else if 2 < parts.length then
    let last_two := joinSep sepStr (parts.drop (parts.length - 2))
    if last_two ∈ one_hyphen_exceptions then
      (joinSep sepStr (parts.take (parts.length - 2)), last_two)
    else
      (joinSep sepStr (parts.take (parts.length - 1)), parts.getLastD [])
  else
    (title, [])

/-! ## Counter-based output file names (ask_questions in newsquestions.py and
questions.py)

The shared counter is read and incremented inside a critical section guarded
by `counter_lock` (threaded variants) or by straight-line sequencing
(questions.py); `runCounter` is the trace of counts handed out by `n`
serialized executions of `count = counter; counter += 1`. The count is
formatted into the saved JSON file name with Python's `f"...{count:05d}.json"`. -/

/-- Numeric value of a decimal digit character. -/
def dval (c : Char) : Nat := c.toNat - ('0').toNat

/-- Little-endian decimal digit characters of `n` (with fuel for structural
recursion; `fuel ≥ n` suffices). -/
def natDigitsRev : Nat → Nat → List Char
  | 0, _ => []
  | fuel + 1, n => if n = 0 then [] else Nat.digitChar (n % 10) :: natDigitsRev fuel (n / 10)

/-- Decimal representation of a natural number, as Python `str(n)`. -/
def natDecimal (n : Nat) : Str :=
  if n = 0 then [('0')] else (natDigitsRev (n + 1) n).reverse

/-- Python format `f"{n:05d}"`: decimal representation left-padded with zeros
to width 5. -/
def pad5 (n : Nat) : Str := List.replicate (5 - (natDecimal n).length) '0' ++ natDecimal n

/-- Reads a digit string back as a number (big-endian). -/
def parseDec (l : Str) : Nat := l.foldl (fun a c => a * 10 + dval c) 0

/-- Reads a little-endian digit list back as a number. -/
def valLE (l : Str) : Nat := l.foldr (fun c acc => acc * 10 + dval c) 0

/-- Trace of counts produced by `n` serialized executions of the critical
section `count = counter; counter += 1`, starting from counter value `c`. -/
def runCounter : Nat → Nat → List Nat
  | 0, _ => []
  | n + 1, c => c :: runCounter n (c + 1)

/-- Saved-response file name `f"AMT-{tag}{timestamp}-{count:05d}.json"`
(tag "News-" in newsquestions.py, "" in questions.py). -/
def counter_json_name (tag ts : Str) (count : Nat) : Str :=
  (("AMT-").data ++ tag ++ ts ++ ("-").data) ++ (pad5 count ++ (".json").data)

/-! ## Result rows and the fan-out of (item, chatbot) tasks
(newsquestions.py, factcheckquestions.py, longtermquestions.py)

A Python row dict with string values is an association list in insertion
order; dict assignment `d[k] = v` replaces an existing key in place and
appends a new key at the end. The effectful body of one task (chat API call,
JSON dump, Drive upload) is abstracted by an `Outcome`: either the body
completes, yielding the response's "model" field and the upload URL, or some
exception is raised anywhere in the body. -/

abbrev Row := List (Str × Str)

/-- Python dict assignment `d[k] = v`. -/
def setCol (r : Row) (k v : Str) : Row :=
  if r.any (fun p => decide (p.1 = k)) then
    r.map (fun p => if p.1 = k then (p.1, v) else p)
  else
    r ++ [(k, v)]

/-- Python dict lookup `d.get(k)`. -/
def getCol? (r : Row) (k : Str) : Option Str :=
  (r.find? (fun p => decide (p.1 = k))).map Prod.snd

/-- Keys of a row dict, in order. -/
def rowKeys (r : Row) : List Str := r.map Prod.fst

/-- Keys of `CB_FUNCTIONS` in chatbots.py. -/
def cb_names : List Str := [("perplexity").data, ("openai").data, ("gemini").data]

/-- Outcome of the effectful body of one (item, chatbot) task: either every
call succeeded (carrying `response["model"]` and the Google Drive upload URL)
or an exception was raised somewhere in the body. -/
inductive Outcome where
  | ok (respModel : Str) (saveUrl : Str)
  | raises
deriving DecidableEq

def aiClientKey : Str := ("ai client").data
def responseUrlKey : Str := ("response url").data
def questionKey : Str := ("question").data

namespace NewsQ

/-- Embedding of `ask_and_save` from newsquestions.py `ask_questions`. -/
def ask_and_save (row_dict : Row) (chatbot : Str) (o : Outcome) : Row :=
  match o with
  | Outcome.ok m u =>
    let save_url := if u = [] then ("error creating url").data else u
    setCol (setCol row_dict aiClientKey m) responseUrlKey save_url
  | Outcome.raises =>
    setCol (setCol row_dict aiClientKey (("ERROR w/ ").data ++ chatbot))
      responseUrlKey ("an error occurred").data

/-- Task list built by `ask_questions`: one (row, chatbot) pair per row of the
dataframe and chatbot of the list, in row-major order. -/
def build_tasks (rows : List Row) (chatbots : List Str) : List (Row × Str) :=
  rows.flatMap (fun row_dict => chatbots.map (fun chatbot => (row_dict, chatbot)))

/-- Embedding of `ask_questions` from newsquestions.py: validates the chatbot
names, then executes one task per (row, chatbot) pair through the worker pool
(`executor.map` keeps task order) with the i-th task's external effects
described by `outcomes i`. -/
def ask_questions (rows : List Row) (chatbots : List Str) (outcomes : Nat → Outcome) :
    Except Str (List Row) :=
  if chatbots.all (fun b => decide (b ∈ cb_names)) then
    Except.ok ((build_tasks rows chatbots).enum.map
      (fun ic => ask_and_save ic.2.1 ic.2.2 (outcomes ic.1)))
  else
    Except.error ("Invalid chatbot specified in ask_questions().").data

end NewsQ

namespace FactCheckQ

/-- Embedding of `ask_and_save` from factcheckquestions.py `ask_questions`
(same error sentinels as newsquestions.py). -/
def ask_and_save (row_dict : Row) (chatbot : Str) (o : Outcome) : Row :=
  match o with
  | Outcome.ok m u =>
    let save_url := if u = [] then ("error creating url").data else u
    setCol (setCol row_dict aiClientKey m) responseUrlKey save_url
  | Outcome.raises =>
    setCol (setCol row_dict aiClientKey (("ERROR w/ ").data ++ chatbot))
      responseUrlKey ("an error occurred").data

end FactCheckQ

namespace LongTermQ

/-- Embedding of `ask_and_save` from longtermquestions.py `answer_questions`;
note the error branch writes the literal "an error ocurred" (sic). -/
def ask_and_save (question : Str) (chatbot : Str) (o : Outcome) : Row :=
  match o with
  | Outcome.ok m u =>
    [(questionKey, question), (aiClientKey, m),
     (responseUrlKey, if u = [] then ("error creating url").data else u)]
  | Outcome.raises =>
    [(questionKey, question), (aiClientKey, ("ERROR w/ ").data ++ chatbot),
     (responseUrlKey, ("an error ocurred").data)]

/-- Embedding of `answer_questions` from longtermquestions.py. -/
def answer_questions (questions : List Str) (chatbots : List Str)
    (outcomes : Nat → Outcome) : Except Str (List Row) :=
  if chatbots.all (fun b => decide (b ∈ cb_names)) then
    Except.ok ((questions.flatMap (fun q => chatbots.map (fun c => (q, c)))).enum.map
      (fun ic => ask_and_save ic.2.1 ic.2.2 (outcomes ic.1)))
  else
    Except.error ("Invalid chatbot specified in ask_questions().").data

end LongTermQ

/-! ## chatbots.py: vendor wrappers

Each wrapper sends the prompt to a vendor SDK and packs the reply into a
four-field dict. The vendor reply (`.model_dump()`) and the clock reading
(`datetime.now().strftime(...)`) are external, so they are parameters; the
reply payload type is abstract. -/

/-- Value stored in a chatbot result dict: a string field or the raw vendor
response payload. -/
inductive CbVal (α : Type) where
  | s (v : Str)
  | raw (r : α)
deriving DecidableEq

/-- Generic dict lookup (`d.get(k)`) for dicts with arbitrary value type. -/
def dget? {β : Type} (r : List (Str × β)) (k : Str) : Option β :=
  (r.find? (fun p => decide (p.1 = k))).map Prod.snd

def timestampKey : Str := ("timestamp").data
def modelKey : Str := ("model").data
def promptKey : Str := ("prompt").data
def responseKey : Str := ("response").data

def perplexity_default_model : Str := ("sonar-pro").data
def openai_default_model : Str := ("gpt-4o").data
def gemini_default_model : Str := ("gemini-2.5-flash").data

/-- Embedding of `ask_perplexity` from chatbots.py. -/
def ask_perplexity {α : Type} (now : Str) (response : α) (prompt model : Str) :
    List (Str × CbVal α) :=
  [(timestampKey, CbVal.s now),
   (modelKey, CbVal.s (("Perplexity ").data ++ model)),
   (promptKey, CbVal.s prompt),
   (responseKey, CbVal.raw response)]

/-- Embedding of `ask_openai` from chatbots.py. -/
def ask_openai {α : Type} (now : Str) (response : α) (prompt model : Str) :
    List (Str × CbVal α) :=
  [(timestampKey, CbVal.s now),
   (modelKey, CbVal.s (("OpenAI ").data ++ model)),
   (promptKey, CbVal.s prompt),
   (responseKey, CbVal.raw response)]

/-- Embedding of `ask_gemini` from chatbots.py. -/
def ask_gemini {α : Type} (now : Str) (response : α) (prompt model : Str) :
    List (Str × CbVal α) :=
  [(timestampKey, CbVal.s now),
   (modelKey, CbVal.s (("Google ").data ++ model)),
   (promptKey, CbVal.s prompt),
   (responseKey, CbVal.raw response)]

/-! ## internetarchive.py: retrieve_spn_url

The poller checks the archive job status up to `max_tries` times, sleeping
`try_interval` seconds after each unsuccessful check. The network is
abstracted as `polls : Nat → PollOutcome`, the outcome of the k-th status
request: either the request raises (HTTP error, timeout, bad JSON — all
caught by the surrounding `except` clauses, which return None) or it returns
a JSON body with a status string, a timestamp and the original URL. The
initial `response` argument carries the job id extracted from
send_spn_request's reply, or is None. `SpnRun` records the returned value,
the number of status checks performed, and the total seconds slept. -/

inductive PollOutcome where
  | fail
  | ok (status ts origUrl : Str)
deriving DecidableEq

def spn_success : Str := ("success").data

/-- Archive URL built on success:
`f"https://web.archive.org/web/{data["timestamp"]}/{data["original_url"]}"`. -/
def spn_archive_url (ts origUrl : Str) : Str :=
  ("https://web.archive.org/web/").data ++ ts ++ ("/").data ++ origUrl

structure SpnRun where
  result : Option Str
  checks : Nat
  slept : Nat
deriving DecidableEq

/-- Status-check loop of retrieve_spn_url (`for attempt in range(max_tries)`),
starting at poll index `i` with `fuel` tries remaining. -/
def spnPoll (polls : Nat → PollOutcome) (try_interval : Nat) : Nat → Nat → SpnRun
  | _, 0 => ⟨none, 0, 0⟩
  | i, fuel + 1 =>
    match polls i with
    | PollOutcome.fail => ⟨none, 1, 0⟩
    | PollOutcome.ok st ts orig =>
      if st = spn_success then
        ⟨some (spn_archive_url ts orig), 1, 0⟩
      else
        let r := spnPoll polls try_interval (i + 1) fuel
        ⟨r.result, r.checks + 1, r.slept + try_interval⟩

/-- Embedding of `retrieve_spn_url` from internetarchive.py. -/
def retrieve_spn_url (response : Option Str) (polls : Nat → PollOutcome)
    (try_interval max_tries : Nat) : SpnRun :=
  match response with
  | none => ⟨none, 0, 0⟩
  | some _jobId => spnPoll polls try_interval 0 max_tries

def spn_default_try_interval : Nat := 5
def spn_default_max_tries : Nat := 40

/-- A poll outcome that neither raised nor reported success. -/
def nonSuccessOk : PollOutcome → Bool
  | PollOutcome.fail => false
  | PollOutcome.ok st _ _ => decide (st ≠ spn_success)

/-! ## googlenews.py fetch_articles, factcheckquestions.py load_claims /
add_questions, longtermquestions.py load_questions

The RSS feed, the Google Sheet and the ArangoDB cursor are external, so their
contents are parameters: the parsed feed entries, the question column, and
the documents produced by the AQL query (each with the language predicted for
its claim by the langid classifier). Python's falsy test `if limit:` treats
both `None` and `0` as "no limit". -/

def sourceKey : Str := ("source").data
def titleKey : Str := ("title").data
def urlKey : Str := ("url").data
def newsOutletKey : Str := ("news-outlet").data
def claimKey : Str := ("claim").data
def langKey : Str := ("lang").data
def datePublishedKey : Str := ("date published").data
def appearanceUrlKey : Str := ("appearance url").data
def contextUrlKey : Str := ("context url").data

structure FeedEntry where
  title : Str
  link : Str
deriving DecidableEq

/-- Row built from one RSS entry in fetch_articles. -/
def fetch_row (e : FeedEntry) : Row :=
  [(sourceKey, ("Google News").data), (titleKey, e.title), (urlKey, e.link)]

/-- Pandas `df.insert(pos, k, v)` at row level. -/
def insertColAt (r : Row) (pos : Nat) (k v : Str) : Row :=
  r.take pos ++ [(k, v)] ++ r.drop pos

/-- Effect of `split_titles` on one row: the title column is split and the
two pieces are written back to the title and news-outlet columns. -/
def split_titles_row (r : Row) : Row :=
  let p := split_single_title ((getCol? r titleKey).getD [])
  setCol (setCol r titleKey p.1) newsOutletKey p.2

/-- Embedding of `fetch_articles` from googlenews.py (the parsed feed entries
are a parameter). -/
def fetch_articles (entries : List FeedEntry) (separate_titles : Bool)
    (article_limit : Nat) : List Row :=
  let rows := entries.map fetch_row
  let df := if article_limit ≠ 0 then rows.take article_limit else rows
  if separate_titles then
    df.map (fun r => split_titles_row (insertColAt r 2 newsOutletKey []))
  else
    df

namespace LongTermQ

/-- Embedding of `load_questions` from longtermquestions.py (the sheet's
question column is a parameter); `question_limit` is `None` or an int. -/
def load_questions (questions : List Str) (question_limit : Option Nat) : List Str :=
  match question_limit with
  | none => questions
  | some k => if k ≠ 0 then questions.take k else questions

end LongTermQ

/-- One document returned by the AQL query in load_claims, together with the
language the langid classifier predicts for its claim. -/
structure ClaimDoc where
  sd_publisher : Str
  claimReviewed : Str
  predicted_lang : Str
  date_published : Str
  appearance_url : Str
  context_url : Str
deriving DecidableEq

/-- Python `str.strip()`. -/
def pyStrip (s : Str) : Str :=
  ((s.dropWhile Char.isWhitespace).reverse.dropWhile Char.isWhitespace).reverse

namespace FactCheckQ

/-- Row with the relevant metadata of one claim document
(load_claims in factcheckquestions.py). -/
def claim_row (lang : Str) (d : ClaimDoc) : Row :=
  [(sourceKey, d.sd_publisher), (claimKey, pyStrip d.claimReviewed), (langKey, lang),
   (datePublishedKey, d.date_published), (appearanceUrlKey, d.appearance_url),
   (contextUrlKey, d.context_url)]

/-- Embedding of `load_claims` from factcheckquestions.py (the cursor's
documents are a parameter); `claim_limit` is `None` or an int. -/
def load_claims (docs : List ClaimDoc) (lang : Str) (claim_limit : Option Nat) :
    List Row :=
  let filtered := docs.filter (fun d => decide (d.predicted_lang = lang))
  let limited :=
    match claim_limit with
    | none => filtered
    | some k => if k ≠ 0 then filtered.take k else filtered
  limited.map (claim_row lang)

/-- Embedding of `add_questions` from factcheckquestions.py: copies the
dataframe and appends a "question" column whose value in each row is the
fact-check prompt concatenated with that row's claim
(`dfq["question"] = factcheck_prompt + dfq["claim"]`); a missing claim
column raises a KeyError, modelled as `none`. -/
def add_questions (factcheck_prompt : Str) : List Row → Option (List Row)
  | [] => some []
  | r :: rs =>
    match getCol? r claimKey with
    | none => none
    | some c =>
      match add_questions factcheck_prompt rs with
      | none => none
      | some out => some (setCol r questionKey (factcheck_prompt ++ c) :: out)

def factcheck_prompt_default : Str := ("Is this statement true: ").data

end FactCheckQ

/-! ## Lock structure of the threaded ask_questions (claim C7)

ask_questions creates `locks = {bot: threading.Lock() for bot in chatbots}`
(one mutex per chatbot name) and a separate `counter_lock`, and dispatches
the tasks to a `ThreadPoolExecutor(max_workers)`. Each task body runs
`with locks[chatbot]: response = ask_fn(question)` and then
`with counter_lock: count = counter; counter += 1`. We model one run as an
interleaving transition system: each task is a chatbot name plus a phase
(not yet scheduled / waiting for its chatbot's lock / holding it during the
request / waiting for the counter lock / holding it / finished); a step
schedules a task only while fewer than max_workers tasks are active, and
lock acquisition steps are enabled only while no other task holds the same
lock, which is exactly the blocking semantics of `threading.Lock`. -/

inductive Phase where
  | pending
  | waitingBot
  | inRequest
  | waitingCounter
  | inCounter
  | done
deriving DecidableEq

structure TaskState where
  bot : Str
  phase : Phase
deriving DecidableEq

/-- A task occupies a worker from the moment it is scheduled until it
finishes. -/
def isActive : Phase → Bool
  | Phase.pending => false
  | Phase.done => false
  | _ => true

/-- Number of tasks currently occupying a worker. -/
def activeCount (s : List TaskState) : Nat := s.countP (fun t => isActive t.phase)

/-- Keys of the dict comprehension `{bot: threading.Lock() for bot in
chatbots}`: first occurrence of each name, in order. -/
def lock_keys (bots : List Str) : List Str :=
  bots.foldl (fun acc b => if b ∈ acc then acc else acc ++ [b]) []

/-- Interleaving semantics of one run of ask_questions with worker bound
`maxW`: a state is the list of tasks with their phases. -/
inductive Step (maxW : Nat) : List TaskState → List TaskState → Prop where
  | start (s : List TaskState) (i : Nat) (t : TaskState)
      (ht : s[i]? = some t) (hp : t.phase = Phase.pending)
      (hw : activeCount s < maxW) :
      Step maxW s (s.set i ⟨t.bot, Phase.waitingBot⟩)
  | acquireBot (s : List TaskState) (i : Nat) (t : TaskState)
      (ht : s[i]? = some t) (hp : t.phase = Phase.waitingBot)
      (hfree : ∀ (j : Nat) (u : TaskState), s[j]? = some u →
        u.phase = Phase.inRequest → u.bot ≠ t.bot) :
      Step maxW s (s.set i ⟨t.bot, Phase.inRequest⟩)
  | releaseBot (s : List TaskState) (i : Nat) (t : TaskState)
      (ht : s[i]? = some t) (hp : t.phase = Phase.inRequest) :
      Step maxW s (s.set i ⟨t.bot, Phase.waitingCounter⟩)
  | acquireCounter (s : List TaskState) (i : Nat) (t : TaskState)
      (ht : s[i]? = some t) (hp : t.phase = Phase.waitingCounter)
      (hfree : ∀ (j : Nat) (u : TaskState), s[j]? = some u →
        u.phase ≠ Phase.inCounter) :
      Step maxW s (s.set i ⟨t.bot, Phase.inCounter⟩)
  | releaseCounter (s : List TaskState) (i : Nat) (t : TaskState)
      (ht : s[i]? = some t) (hp : t.phase = Phase.inCounter) :
      Step maxW s (s.set i ⟨t.bot, Phase.done⟩)

/-- Initial state of a run: one pending task per dispatched (item, chatbot)
pair, `bots` listing the chatbot name of each task. -/
def initTasks (bots : List Str) : List TaskState :=
  bots.map (fun b => ⟨b, Phase.pending⟩)

/-- States reachable in one run of ask_questions. -/
def Reachable (maxW : Nat) (bots : List Str) (s : List TaskState) : Prop :=
  Relation.ReflTransGen (Step maxW) (initTasks bots) s

/-- No two distinct tasks with the same chatbot name are inside the request
section at the same time. -/
def MutexInv (s : List TaskState) : Prop :=
  ∀ (i j : Nat) (ti tj : TaskState), i ≠ j → s[i]? = some ti → s[j]? = some tj →
    ti.phase = Phase.inRequest → tj.phase = Phase.inRequest → ti.bot ≠ tj.bot

/-- At most one task holds the counter lock. -/
def CounterMutexInv (s : List TaskState) : Prop :=
  ∀ (i j : Nat) (ti tj : TaskState), i ≠ j → s[i]? = some ti → s[j]? = some tj →
    ti.phase = Phase.inCounter → tj.phase = Phase.inCounter → False

theorem leadsWith_iff (sep : Str) : ∀ s : Str, leadsWith sep s = true ↔ ∃ t, s = sep ++ t := by
  induction sep with
  | nil =>
    intro s
    constructor
    · intro _
      exact ⟨s, rfl⟩
    · intro _
      rfl
  | cons a as ih =>
    intro s
    cases s with
    | nil =>
      constructor
      · intro h
        simp [leadsWith] at h
      · rintro ⟨t, ht⟩
        have hlen := congrArg List.length ht
        simp at hlen
    | cons b bs =>
      simp only [leadsWith]
      by_cases hab : a = b
      · subst hab
        rw [if_pos rfl, ih bs]
        constructor
        · rintro ⟨t, rfl⟩
          exact ⟨t, rfl⟩
        · rintro ⟨t, ht⟩
          refine ⟨t, ?_⟩
          rw [List.cons_append] at ht
          injection ht with _ h2
      · rw [if_neg hab]
        constructor
        · intro h
          exact absurd h (by simp)
        · rintro ⟨t, ht⟩
          rw [List.cons_append] at ht
          injection ht with h1 _
          exact absurd h1.symm hab

theorem leadsWith_drop {sep s : Str} (h : leadsWith sep s = true) :
    sep ++ s.drop sep.length = s := by
  obtain ⟨t, rfl⟩ := (leadsWith_iff sep s).1 h
  simp

theorem breakOn_eq_some {sep : Str} :
    ∀ {s a b : Str}, breakOn sep s = some (a, b) → a ++ sep ++ b = s := by
  intro s
  induction s with
  | nil =>
    intro a b h
    simp only [breakOn] at h
    by_cases hl : leadsWith sep [] = true
    · rw [if_pos hl] at h
      obtain ⟨t, ht⟩ := (leadsWith_iff sep []).1 hl
      have hsep : sep = [] := by
        cases sep with
        | nil => rfl
        | cons x xs => simp at ht
      cases h
      simp [hsep]
    · rw [if_neg hl] at h
      cases h
  | cons c rest ih =>
    intro a b h
    simp only [breakOn] at h
    by_cases hl : leadsWith sep (c :: rest) = true
    · rw [if_pos hl] at h
      cases h
      simpa using leadsWith_drop hl
    · rw [if_neg hl] at h
      cases hrec : breakOn sep rest with
      | none => rw [hrec] at h; simp at h
      | some p =>
        rw [hrec] at h
        obtain ⟨a', b'⟩ := p
        rw [Option.map_some'] at h
        cases h
        have := ih hrec
        simp [List.cons_append, this]

theorem breakOn_length {sep : Str} (hsep : sep ≠ []) {s a b : Str}
    (h : breakOn sep s = some (a, b)) : b.length < s.length := by
  have hs := breakOn_eq_some h
  have : a.length + sep.length + b.length = s.length := by
    rw [← hs]; simp [List.length_append]; omega
  have hsl : 1 ≤ sep.length := by
    cases sep with
    | nil => exact absurd rfl hsep
    | cons x xs => simp
  omega

theorem splitSepFuel_ne_nil (sep : Str) : ∀ fuel s, splitSepFuel sep fuel s ≠ [] := by
  intro fuel s
  cases fuel with
  | zero => simp [splitSepFuel]
  | succ n =>
    simp only [splitSepFuel]
    cases breakOn sep s with
    | none => simp
    | some p => simp

theorem joinSep_cons (sep : Str) (x : Str) {l : List Str} (hl : l ≠ []) :
    joinSep sep (x :: l) = x ++ sep ++ joinSep sep l := by
  cases l with
  | nil => exact absurd rfl hl
  | cons y rest => rfl

theorem joinSep_splitSepFuel (sep : Str) (hsep : sep ≠ []) :
    ∀ fuel s, s.length ≤ fuel → joinSep sep (splitSepFuel sep fuel s) = s := by
  intro fuel
  induction fuel with
  | zero =>
    intro s hs
    have : s = [] := by
      cases s with
      | nil => rfl
      | cons c r => simp at hs
    subst this
    rfl
  | succ n ih =>
    intro s hs
    simp only [splitSepFuel]
    cases hbr : breakOn sep s with
    | none => rfl
    | some p =>
      obtain ⟨a, b⟩ := p
      have hblen : b.length < s.length := breakOn_length hsep hbr
      have hrec := ih b (by omega)
      rw [joinSep_cons sep a (splitSepFuel_ne_nil sep n b), hrec]
      exact breakOn_eq_some hbr

theorem joinSep_splitSep (sep : Str) (hsep : sep ≠ []) (s : Str) :
    joinSep sep (splitSep sep s) = s :=
  joinSep_splitSepFuel sep hsep s.length s le_rfl

theorem joinSep_append (sep : Str) :
    ∀ (l1 l2 : List Str), l1 ≠ [] → l2 ≠ [] →
      joinSep sep (l1 ++ l2) = joinSep sep l1 ++ sep ++ joinSep sep l2 := by
  intro l1
  induction l1 with
  | nil => intro l2 h1 _; exact absurd rfl h1
  | cons x xs ih =>
    intro l2 _ h2
    cases xs with
    | nil =>
      simp only [List.nil_append, List.cons_append]
      rw [joinSep_cons sep x h2]
      rfl
    | cons y ys =>
      have hne : (y :: ys) ++ l2 ≠ [] := by simp
      rw [List.cons_append, joinSep_cons sep x hne, ih l2 (by simp) h2,
        joinSep_cons sep x (l := y :: ys) (by simp)]
      simp [List.append_assoc]

theorem splitSep_of_not_contains {sep s : Str} (h : containsSep sep s = false) :
    splitSep sep s = [s] := by
  unfold splitSep
  cases hn : s.length with
  | zero => simp [splitSepFuel]
  | succ n =>
    simp only [splitSepFuel]
    cases hbr : breakOn sep s with
    | none => rfl
    | some p =>
      exfalso
      unfold containsSep at h
      rw [hbr] at h
      simp at h

theorem sepStr_ne_nil : sepStr ≠ [] := by decide

/-- A headline that does not contain the separator is returned unchanged with
an empty outlet. -/
theorem split_single_title_no_sep {title : Str} (h : containsSep sepStr title = false) :
    split_single_title title = (title, []) := by
  unfold split_single_title
  simp only [splitSep_of_not_contains h, List.length_cons, List.length_nil]
  rfl

theorem take_concat_getLastD (l : List Str) (x : Str) :
    (l ++ [x]).take ((l ++ [x]).length - 1) = l ∧ (l ++ [x]).getLastD [] = x := by
  constructor
  · have hlen : (l ++ [x]).length - 1 = l.length := by simp
    rw [hlen]
    exact List.take_left l [x]
  · simp [List.getLastD_concat]

/-- Round-trip for the splitter: joining the two returned parts with the
separator recovers the original headline whenever the headline contains the
separator, and the title part is the whole headline otherwise. -/
theorem split_single_title_round_trip (title : Str) :
    (containsSep sepStr title = true →
      (split_single_title title).1 ++ sepStr ++ (split_single_title title).2 = title) ∧
    (containsSep sepStr title = false →
      (split_single_title title).1 = title ∧ (split_single_title title).2 = []) := by
  constructor
  · intro hc
    have hjoin := joinSep_splitSep sepStr sepStr_ne_nil title
    unfold split_single_title
    cases hparts : splitSep sepStr title with
    | nil => exact absurd hparts (splitSepFuel_ne_nil sepStr title.length title)
    | cons p0 rest =>
      rw [hparts] at hjoin
      cases rest with
      | nil =>
        -- a single part would mean the separator does not occur in the title
        exfalso
        unfold containsSep at hc
        cases hbr : breakOn sepStr title with
        | none => rw [hbr] at hc; simp at hc
        | some p =>
          unfold splitSep at hparts
          cases hlen : title.length with
          | zero =>
            have htnil : title = [] := List.length_eq_zero.mp hlen
            subst htnil
            have hnone : breakOn sepStr ([] : Str) = none := by decide
            rw [hnone] at hbr
            exact Option.noConfusion hbr
          | succ n =>
            rw [hlen] at hparts
            simp only [splitSepFuel] at hparts
            rw [hbr] at hparts
            obtain ⟨a, b⟩ := p
            simp only [List.cons.injEq] at hparts
            exact splitSepFuel_ne_nil sepStr n b hparts.2
      | cons p1 rest2 =>
        cases rest2 with
        | nil =>
          -- exactly two parts
          simp only [hparts, List.length_cons, List.length_nil, if_pos]
          simpa [joinSep] using hjoin
        | cons p2 rest3 =>
          -- three or more parts
          have hlen2 : ¬ (p0 :: p1 :: p2 :: rest3).length = 2 := by
            simp only [List.length_cons]
            omega
          have hlen3 : 2 < (p0 :: p1 :: p2 :: rest3).length := by
            simp only [List.length_cons]
            omega
          simp only [hparts, if_neg hlen2, if_pos hlen3]
          generalize hpdef : p0 :: p1 :: p2 :: rest3 = parts at hjoin hlen2 hlen3
          by_cases hexc :
              joinSep sepStr (parts.drop (parts.length - 2)) ∈ one_hyphen_exceptions
          · rw [if_pos hexc]
            have hsplit : parts.take (parts.length - 2) ++ parts.drop (parts.length - 2)
                = parts := List.take_append_drop _ _
            have htne : parts.take (parts.length - 2) ≠ [] := by
              intro hnil
              have := congrArg List.length hnil
              simp [List.length_take] at this
              omega
            have hdne : parts.drop (parts.length - 2) ≠ [] := by
              intro hnil
              have := congrArg List.length hnil
              simp [List.length_drop] at this
              omega
            calc joinSep sepStr (parts.take (parts.length - 2)) ++ sepStr ++
                    joinSep sepStr (parts.drop (parts.length - 2))
                = joinSep sepStr (parts.take (parts.length - 2) ++
                    parts.drop (parts.length - 2)) :=
                  (joinSep_append sepStr _ _ htne hdne).symm
              _ = joinSep sepStr parts := by rw [hsplit]
              _ = title := hjoin
          · rw [if_neg hexc]
            obtain ⟨l, x, hconcat⟩ : ∃ l x, parts = l ++ [x] := by
              rcases List.eq_nil_or_concat parts with hnil | hcc
              · rw [hnil] at hlen3; simp at hlen3
              · obtain ⟨L, b, hLb⟩ := hcc
                exact ⟨L, b, by simpa [List.concat_eq_append] using hLb⟩
            have hx := take_concat_getLastD l x
            rw [hconcat, hx.1, hx.2]
            have hlne : l ≠ [] := by
              intro hnil
              rw [hconcat, hnil] at hlen3
              simp at hlen3
            calc joinSep sepStr l ++ sepStr ++ x
                = joinSep sepStr l ++ sepStr ++ joinSep sepStr [x] := rfl
              _ = joinSep sepStr (l ++ [x]) :=
                  (joinSep_append sepStr l [x] hlne (by simp)).symm
              _ = title := by rw [← hconcat]; exact hjoin
  · intro hc
    rw [split_single_title_no_sep hc]
    exact ⟨rfl, rfl⟩

/-! ## Claim C2 -/

/-- C2 counterexample: the headline "A - B" contains exactly one hyphen, yet
split_single_title does not return it unchanged with an empty outlet; it
splits it into title "A" and outlet "B". -/
theorem c2_one_hyphen_counterexample :
    (("A - B").data.count '-' = 1) ∧
    split_single_title ("A - B").data = (("A").data, ("B").data) ∧
    split_single_title ("A - B").data ≠ (("A - B").data, ([] : Str)) := by
  decide

/-- C2 (amended): for every headline that does not contain the three-character
separator " - " (in particular every headline with zero hyphens, and every
headline whose single hyphen is not surrounded by spaces), split_single_title
returns the original title unchanged and an empty news-outlet field. -/
theorem c2_split_no_separator_identity (title : Str)
    (h : containsSep sepStr title = false) :
    split_single_title title = (title, []) :=
  split_single_title_no_sep h

/-- C2 witness: a headline with a single non-space-surrounded hyphen is
returned unchanged with an empty outlet. -/
theorem c2_split_no_separator_identity_witness :
    containsSep sepStr ("Spider-Man returns").data = false ∧
    split_single_title ("Spider-Man returns").data = (("Spider-Man returns").data, []) :=
  ⟨by decide, c2_split_no_separator_identity ("Spider-Man returns").data (by decide)⟩

/-! ## Claim C8 -/

/-- C8 counterexample: on the input "A - " (trailing separator) the splitter
returns an empty outlet together with the title part "A", which differs from
the original input, so "if outlet is empty then the title part equals the
original" is false as stated. -/
theorem c8_round_trip_counterexample :
    (split_single_title ("A - ").data).2 = ([] : Str) ∧
    (split_single_title ("A - ").data).1 ≠ ("A - ").data := by
  decide

/-- C8 (amended): the pair produced by split_single_title round-trips to the
original input, with the case split made on whether the original contains the
separator " - " rather than on whether the outlet is empty: if the title
contains " - " then title_part ++ " - " ++ outlet equals the original exactly
(even when the outlet is the empty string), and otherwise title_part equals
the original and the outlet is empty; splitting never loses or alters
characters. -/
theorem c8_split_round_trip (title : Str) :
    (containsSep sepStr title = true →
      (split_single_title title).1 ++ sepStr ++ (split_single_title title).2 = title) ∧
    (containsSep sepStr title = false →
      (split_single_title title).1 = title ∧ (split_single_title title).2 = []) :=
  split_single_title_round_trip title

/-- C8 witness: round-trip at a concrete headline containing the separator. -/
theorem c8_split_round_trip_witness :
    containsSep sepStr ("Quake hits LA - Reuters").data = true ∧
    (split_single_title ("Quake hits LA - Reuters").data).1 ++ sepStr ++
      (split_single_title ("Quake hits LA - Reuters").data).2 =
      ("Quake hits LA - Reuters").data :=
  ⟨by decide, (c8_split_round_trip ("Quake hits LA - Reuters").data).1 (by decide)⟩

/-! ## Decimal formatting and counter lemmas (claim C3) -/

theorem dval_digitChar : ∀ d, d < 10 → dval (Nat.digitChar d) = d := by decide

theorem valLE_natDigitsRev : ∀ fuel n, n ≤ fuel → valLE (natDigitsRev fuel n) = n := by
  intro fuel
  induction fuel with
  | zero =>
    intro n hn
    have : n = 0 := by omega
    subst this
    rfl
  | succ m ih =>
    intro n hn
    by_cases h0 : n = 0
    · subst h0
      simp [natDigitsRev, valLE]
    · simp only [natDigitsRev, if_neg h0]
      have hrec : valLE (natDigitsRev m (n / 10)) = n / 10 := by
        apply ih
        have := Nat.div_lt_self (Nat.pos_of_ne_zero h0) (by omega : 1 < 10)
        omega
      show valLE (natDigitsRev m (n / 10)) * 10 + dval (Nat.digitChar (n % 10)) = n
      rw [hrec, dval_digitChar (n % 10) (Nat.mod_lt n (by omega))]
      omega

theorem parseDec_reverse (l : Str) : parseDec l.reverse = valLE l := by
  unfold parseDec valLE
  rw [List.foldl_reverse]

theorem parseDec_natDecimal (n : Nat) : parseDec (natDecimal n) = n := by
  by_cases h0 : n = 0
  · subst h0
    rfl
  · unfold natDecimal
    rw [if_neg h0, parseDec_reverse]
    exact valLE_natDigitsRev (n + 1) n (by omega)

theorem parseDec_replicate_zero (k : Nat) (l : Str) :
    parseDec (List.replicate k '0' ++ l) = parseDec l := by
  unfold parseDec
  rw [List.foldl_append]
  have : List.foldl (fun a c => a * 10 + dval c) 0 (List.replicate k '0') = 0 := by
    induction k with
    | zero => rfl
    | succ m ihm => rw [List.replicate_succ]; exact ihm
  rw [this]

theorem parseDec_pad5 (n : Nat) : parseDec (pad5 n) = n := by
  unfold pad5
  rw [parseDec_replicate_zero, parseDec_natDecimal]

theorem pad5_injective : Function.Injective pad5 := by
  intro a b h
  have := congrArg parseDec h
  rwa [parseDec_pad5, parseDec_pad5] at this

theorem counter_json_name_injective (tag ts : Str) :
    Function.Injective (counter_json_name tag ts) := by
  intro a b h
  unfold counter_json_name at h
  have h1 := List.append_cancel_left h
  have h2 := List.append_cancel_right h1
  exact pad5_injective h2

theorem runCounter_eq_range' : ∀ n c, runCounter n c = List.range' c n := by
  intro n
  induction n with
  | zero => intro c; rfl
  | succ m ih =>
    intro c
    show c :: runCounter m (c + 1) = List.range' c (m + 1)
    rw [ih (c + 1), List.range'_succ]

/-! ## Claim C3 -/

/-- C3: within one run of ask_questions, the n serialized executions of the
counter-increment critical section yield pairwise distinct counts (the trace
starting at 0 has no duplicate), and consequently the counter-based JSON file
names AMT-{tag}{timestamp}-{count:05d}.json built from those counts are
pairwise distinct. -/
theorem c3_counter_filenames_distinct (n : Nat) (tag ts : Str) :
    (runCounter n 0).Nodup ∧
    ((runCounter n 0).map (counter_json_name tag ts)).Nodup := by
  have hnd : (runCounter n 0).Nodup := by
    rw [runCounter_eq_range']
    exact List.nodup_range' 0 n
  exact ⟨hnd, hnd.map (counter_json_name_injective tag ts)⟩

/-! ## Fan-out lemmas (claims C4, C1) -/

theorem flatMap_const_length {α β : Type} (l : List α) (f : α → List β) (B : Nat)
    (hB : ∀ a, (f a).length = B) : (l.flatMap f).length = l.length * B := by
  induction l with
  | nil => simp
  | cons a t ih =>
    rw [List.flatMap_cons, List.length_append, hB, ih, List.length_cons, Nat.succ_mul]
    omega

theorem flatMap_const_getElem? {α β : Type} (l : List α) (f : α → List β) (B : Nat)
    (hB : ∀ a, (f a).length = B) :
    ∀ i j, j < B → (hi : i < l.length) →
      (l.flatMap f)[i * B + j]? = (f (l.get ⟨i, hi⟩))[j]? := by
  induction l with
  | nil =>
    intro i j _ hi
    simp at hi
  | cons a t ih =>
    intro i j hj hi
    cases i with
    | zero =>
      rw [List.flatMap_cons]
      simp only [Nat.zero_mul, Nat.zero_add]
      rw [List.getElem?_append, if_pos (by rw [hB]; exact hj)]
      rfl
    | succ k =>
      rw [List.flatMap_cons]
      have hidx : (k + 1) * B + j = (f a).length + (k * B + j) := by
        rw [hB, Nat.succ_mul]
        omega
      rw [hidx, List.getElem?_append_right (by omega)]
      have hsub : (f a).length + (k * B + j) - (f a).length = k * B + j := by omega
      rw [hsub]
      exact ih k j hj (by simpa using hi)

/-! ## Claim C4 -/

/-- C4: for every input dataframe and chatbot list (all names valid),
ask_questions in newsquestions.py dispatches exactly one task per
(row, chatbot) combination — rows.length * chatbots.length tasks in total,
in row-major order, the task at position i*B+j pairing row i with chatbot j —
and the returned dataframe has exactly one result row per task, in task
order, each row produced by ask_and_save on that task. -/
theorem c4_fanout_one_row_per_task (rows : List Row) (chatbots : List Str)
    (outcomes : Nat → Outcome) (hvalid : ∀ b ∈ chatbots, b ∈ cb_names) :
    ∃ res, NewsQ.ask_questions rows chatbots outcomes = Except.ok res ∧
      (NewsQ.build_tasks rows chatbots).length = rows.length * chatbots.length ∧
      res.length = rows.length * chatbots.length ∧
      (∀ i j, (hi : i < rows.length) → (hj : j < chatbots.length) →
        (NewsQ.build_tasks rows chatbots)[i * chatbots.length + j]? =
          some (rows.get ⟨i, hi⟩, chatbots.get ⟨j, hj⟩) ∧
        res[i * chatbots.length + j]? =
          some (NewsQ.ask_and_save (rows.get ⟨i, hi⟩) (chatbots.get ⟨j, hj⟩)
            (outcomes (i * chatbots.length + j)))) := by
  have hcond : chatbots.all (fun b => decide (b ∈ cb_names)) = true :=
    List.all_eq_true.mpr (fun b hb => decide_eq_true (hvalid b hb))
  have hB : ∀ r : Row, (chatbots.map (fun chatbot => (r, chatbot))).length
      = chatbots.length := fun r => List.length_map _ _
  have htasklen : (NewsQ.build_tasks rows chatbots).length
      = rows.length * chatbots.length :=
    flatMap_const_length rows _ chatbots.length hB
  have htaskget : ∀ i j, (hi : i < rows.length) → j < chatbots.length →
      (NewsQ.build_tasks rows chatbots)[i * chatbots.length + j]? =
        some (rows.get ⟨i, hi⟩, chatbots[j]?.getD []) := by
    intro i j hi hj
    rw [NewsQ.build_tasks, flatMap_const_getElem? rows _ chatbots.length hB i j hj hi,
      List.getElem?_map, List.getElem?_eq_getElem hj]
    rfl
  refine ⟨(NewsQ.build_tasks rows chatbots).enum.map
      (fun ic => NewsQ.ask_and_save ic.2.1 ic.2.2 (outcomes ic.1)), ?_, htasklen, ?_, ?_⟩
  · unfold NewsQ.ask_questions
    rw [if_pos hcond]
  · rw [List.length_map, List.enum_length, htasklen]
  · intro i j hi hj
    have hget := htaskget i j hi hj
    have hgetD : chatbots[j]?.getD [] = chatbots.get ⟨j, hj⟩ := by
      rw [List.getElem?_eq_getElem hj]
      rfl
    rw [hgetD] at hget
    refine ⟨hget, ?_⟩
    rw [List.getElem?_map, List.getElem?_enum, hget]
    rfl

/-- C4 witness: one row, one chatbot, one dispatched task whose result row is
the ask_and_save output. -/
theorem c4_fanout_one_row_per_task_witness :
    (∀ b ∈ [("openai").data], b ∈ cb_names) ∧
    (∃ res, NewsQ.ask_questions [[(questionKey, ("q").data)]] [("openai").data]
        (fun _ => Outcome.raises) = Except.ok res ∧
      (NewsQ.build_tasks [[(questionKey, ("q").data)]] [("openai").data]).length
        = [[(questionKey, ("q").data)]].length * [("openai").data].length ∧
      res.length = [[(questionKey, ("q").data)]].length * [("openai").data].length ∧
      (∀ i j, (hi : i < [[(questionKey, ("q").data)]].length) →
        (hj : j < [("openai").data].length) →
        (NewsQ.build_tasks [[(questionKey, ("q").data)]]
            [("openai").data])[i * [("openai").data].length + j]? =
          some ([[(questionKey, ("q").data)]].get ⟨i, hi⟩,
            [("openai").data].get ⟨j, hj⟩) ∧
        res[i * [("openai").data].length + j]? =
          some (NewsQ.ask_and_save ([[(questionKey, ("q").data)]].get ⟨i, hi⟩)
            ([("openai").data].get ⟨j, hj⟩)
            ((fun _ => Outcome.raises) (i * [("openai").data].length + j))))) :=
  ⟨by decide, c4_fanout_one_row_per_task [[(questionKey, ("q").data)]]
    [("openai").data] (fun _ => Outcome.raises) (by decide)⟩

/-! ## Claim C1 -/

/-- C1: a failing task still yields its own result row and sibling tasks are
unaffected, but the sentinel recorded in the "response url" field by
answer_questions in longtermquestions.py is the misspelled "an error ocurred",
not the "an error occurred" written by newsquestions.py and
factcheckquestions.py: evaluation of the embedded code at a failing task
(question "q", chatbot "openai", body raises) shows the divergence. -/
theorem c1_longterm_error_sentinel_misspelled :
    LongTermQ.answer_questions [("q").data] [("openai").data] (fun _ => Outcome.raises)
      = Except.ok [[(questionKey, ("q").data),
          (aiClientKey, ("ERROR w/ openai").data),
          (responseUrlKey, ("an error ocurred").data)]] ∧
    getCol? (LongTermQ.ask_and_save ("q").data ("openai").data Outcome.raises)
      responseUrlKey = some (("an error ocurred").data) ∧
    ("an error ocurred").data ≠ ("an error occurred").data ∧
    getCol? (NewsQ.ask_and_save [] ("openai").data Outcome.raises) responseUrlKey
      = some (("an error occurred").data) ∧
    getCol? (FactCheckQ.ask_and_save [] ("openai").data Outcome.raises) responseUrlKey
      = some (("an error occurred").data) ∧
    getCol? (NewsQ.ask_and_save [] ("openai").data Outcome.raises) aiClientKey
      = some (("ERROR w/ openai").data) := by
  refine ⟨rfl, rfl, by decide, rfl, rfl, rfl⟩

/-! ## Claim C6 -/

/-- C6: for every prompt, model, clock reading and raw vendor payload, each of
the three chatbot wrappers returns a dict with exactly the four fields
timestamp, model, prompt, response (in that order); the prompt field equals
the input prompt unchanged, the timestamp and response fields carry the clock
reading and the raw payload, and the model field is the vendor name followed
by the model identifier ("Perplexity ...", "OpenAI ...", "Google ..."), e.g.
"OpenAI gpt-4o" for the default OpenAI model. -/
theorem c6_chat_wrappers_normalized {α : Type} (now : Str) (response : α)
    (prompt model : Str) :
    ((ask_perplexity now response prompt model).map Prod.fst
        = [timestampKey, modelKey, promptKey, responseKey] ∧
      dget? (ask_perplexity now response prompt model) promptKey = some (CbVal.s prompt) ∧
      dget? (ask_perplexity now response prompt model) modelKey
        = some (CbVal.s ((("Perplexity ").data ++ model))) ∧
      dget? (ask_perplexity now response prompt model) timestampKey = some (CbVal.s now) ∧
      dget? (ask_perplexity now response prompt model) responseKey
        = some (CbVal.raw response)) ∧
    ((ask_openai now response prompt model).map Prod.fst
        = [timestampKey, modelKey, promptKey, responseKey] ∧
      dget? (ask_openai now response prompt model) promptKey = some (CbVal.s prompt) ∧
      dget? (ask_openai now response prompt model) modelKey
        = some (CbVal.s ((("OpenAI ").data ++ model))) ∧
      dget? (ask_openai now response prompt model) timestampKey = some (CbVal.s now) ∧
      dget? (ask_openai now response prompt model) responseKey
        = some (CbVal.raw response)) ∧
    ((ask_gemini now response prompt model).map Prod.fst
        = [timestampKey, modelKey, promptKey, responseKey] ∧
      dget? (ask_gemini now response prompt model) promptKey = some (CbVal.s prompt) ∧
      dget? (ask_gemini now response prompt model) modelKey
        = some (CbVal.s ((("Google ").data ++ model))) ∧
      dget? (ask_gemini now response prompt model) timestampKey = some (CbVal.s now) ∧
      dget? (ask_gemini now response prompt model) responseKey
        = some (CbVal.raw response)) ∧
    dget? (ask_openai now response prompt openai_default_model) modelKey
      = some (CbVal.s (("OpenAI gpt-4o").data)) :=
  ⟨⟨rfl, rfl, rfl, rfl, rfl⟩, ⟨rfl, rfl, rfl, rfl, rfl⟩, ⟨rfl, rfl, rfl, rfl, rfl⟩, rfl⟩

/-! ## Poller lemmas (claim C5) -/

theorem spnPoll_checks_le (polls : Nat → PollOutcome) (ti : Nat) :
    ∀ fuel i, (spnPoll polls ti i fuel).checks ≤ fuel := by
  intro fuel
  induction fuel with
  | zero => intro i; exact Nat.le_refl 0
  | succ n ih =>
    intro i
    cases hpi : polls i with
    | fail =>
      simp only [spnPoll, hpi]
      exact Nat.le_add_left 1 n
    | ok st ts orig =>
      by_cases hst : st = spn_success
      · simp only [spnPoll, hpi, if_pos hst]
        exact Nat.le_add_left 1 n
      · simp only [spnPoll, hpi, if_neg hst]
        exact Nat.succ_le_succ (ih (i + 1))

theorem spnPoll_success (polls : Nat → PollOutcome) (ti : Nat) :
    ∀ fuel i k ts orig, k < fuel →
      polls (i + k) = PollOutcome.ok spn_success ts orig →
      (∀ j, j < k → nonSuccessOk (polls (i + j)) = true) →
      spnPoll polls ti i fuel = ⟨some (spn_archive_url ts orig), k + 1, ti * k⟩ := by
  intro fuel
  induction fuel with
  | zero =>
    intro i k ts orig hk
    omega
  | succ n ih =>
    intro i k ts orig hk hsucc hbefore
    cases k with
    | zero =>
      rw [Nat.add_zero] at hsucc
      simp only [spnPoll, hsucc, if_pos rfl]
      rfl
    | succ m =>
      have h0 := hbefore 0 (Nat.succ_pos m)
      rw [Nat.add_zero] at h0
      cases hpi : polls i with
      | fail => rw [hpi] at h0; simp [nonSuccessOk] at h0
      | ok st ts' u =>
        rw [hpi] at h0
        have hne : st ≠ spn_success := by
          simpa [nonSuccessOk] using h0
        simp only [spnPoll, hpi, if_neg hne]
        have hsucc' : polls (i + 1 + m) = PollOutcome.ok spn_success ts orig := by
          have : i + 1 + m = i + (m + 1) := by omega
          rw [this]
          exact hsucc
        have hbefore' : ∀ j, j < m → nonSuccessOk (polls (i + 1 + j)) = true := by
          intro j hj
          have : i + 1 + j = i + (j + 1) := by omega
          rw [this]
          exact hbefore (j + 1) (by omega)
        rw [ih (i + 1) m ts orig (by omega) hsucc' hbefore']
        show SpnRun.mk (some (spn_archive_url ts orig)) (m + 1 + 1) (ti * m + ti)
          = SpnRun.mk (some (spn_archive_url ts orig)) (m + 1 + 1) (ti * (m + 1))
        rw [Nat.mul_succ]

theorem spnPoll_all_nonsuccess (polls : Nat → PollOutcome) (ti : Nat) :
    ∀ fuel i, (∀ j, j < fuel → nonSuccessOk (polls (i + j)) = true) →
      spnPoll polls ti i fuel = ⟨none, fuel, ti * fuel⟩ := by
  intro fuel
  induction fuel with
  | zero => intro i _; rfl
  | succ n ih =>
    intro i hall
    have h0 := hall 0 (Nat.succ_pos n)
    rw [Nat.add_zero] at h0
    cases hpi : polls i with
    | fail => rw [hpi] at h0; simp [nonSuccessOk] at h0
    | ok st ts' u =>
      rw [hpi] at h0
      have hne : st ≠ spn_success := by
        simpa [nonSuccessOk] using h0
      simp only [spnPoll, hpi, if_neg hne]
      have hall' : ∀ j, j < n → nonSuccessOk (polls (i + 1 + j)) = true := by
        intro j hj
        have : i + 1 + j = i + (j + 1) := by omega
        rw [this]
        exact hall (j + 1) (by omega)
      rw [ih (i + 1) hall']
      show SpnRun.mk none (n + 1) (ti * n + ti) = SpnRun.mk none (n + 1) (ti * (n + 1))
      rw [Nat.mul_succ]

theorem spnPoll_fail (polls : Nat → PollOutcome) (ti : Nat) :
    ∀ fuel i k, k < fuel → polls (i + k) = PollOutcome.fail →
      (∀ j, j < k → nonSuccessOk (polls (i + j)) = true) →
      (spnPoll polls ti i fuel).result = none := by
  intro fuel
  induction fuel with
  | zero =>
    intro i k hk
    omega
  | succ n ih =>
    intro i k hk hfail hbefore
    cases k with
    | zero =>
      rw [Nat.add_zero] at hfail
      simp only [spnPoll, hfail]
    | succ m =>
      have h0 := hbefore 0 (Nat.succ_pos m)
      rw [Nat.add_zero] at h0
      cases hpi : polls i with
      | fail => rw [hpi] at h0; simp [nonSuccessOk] at h0
      | ok st ts' u =>
        rw [hpi] at h0
        have hne : st ≠ spn_success := by
          simpa [nonSuccessOk] using h0
        simp only [spnPoll, hpi, if_neg hne]
        have hfail' : polls (i + 1 + m) = PollOutcome.fail := by
          have : i + 1 + m = i + (m + 1) := by omega
          rw [this]
          exact hfail
        have hbefore' : ∀ j, j < m → nonSuccessOk (polls (i + 1 + j)) = true := by
          intro j hj
          have : i + 1 + j = i + (j + 1) := by omega
          rw [this]
          exact hbefore (j + 1) (by omega)
        exact ih (i + 1) m (by omega) hfail' hbefore'

/-! ## Claim C5 -/

/-- C5: retrieve_spn_url performs at most max_tries status checks (default
40), waiting try_interval seconds (default 5) between consecutive checks; it
returns the constructed archive URL as soon as some check reports status
"success" (k earlier non-success checks mean k+1 checks and k waits); it
returns None after max_tries checks without success (having performed exactly
max_tries checks), returns None without checking when the initial response
argument is None, and returns None when a status request raises. -/
theorem c5_retrieve_spn_url_poller (resp : Option Str) (polls : Nat → PollOutcome)
    (ti mt : Nat) (jid : Str) :
    ((retrieve_spn_url resp polls ti mt).checks ≤ mt) ∧
    (retrieve_spn_url none polls ti mt = ⟨none, 0, 0⟩) ∧
    (∀ k ts orig, k < mt → polls k = PollOutcome.ok spn_success ts orig →
      (∀ j, j < k → nonSuccessOk (polls j) = true) →
      retrieve_spn_url (some jid) polls ti mt
        = ⟨some (spn_archive_url ts orig), k + 1, ti * k⟩) ∧
    ((∀ j, j < mt → nonSuccessOk (polls j) = true) →
      retrieve_spn_url (some jid) polls ti mt = ⟨none, mt, ti * mt⟩) ∧
    (∀ k, k < mt → polls k = PollOutcome.fail →
      (∀ j, j < k → nonSuccessOk (polls j) = true) →
      (retrieve_spn_url (some jid) polls ti mt).result = none) ∧
    (spn_default_try_interval = 5 ∧ spn_default_max_tries = 40) := by
  refine ⟨?_, rfl, ?_, ?_, ?_, rfl, rfl⟩
  · cases resp with
    | none => exact Nat.zero_le mt
    | some j => exact spnPoll_checks_le polls ti mt 0
  · intro k ts orig hk hsucc hbefore
    show spnPoll polls ti 0 mt = _
    exact spnPoll_success polls ti mt 0 k ts orig hk (by simpa using hsucc)
      (by intro j hj; simpa using hbefore j hj)
  · intro hall
    show spnPoll polls ti 0 mt = _
    exact spnPoll_all_nonsuccess polls ti mt 0 (by intro j hj; simpa using hall j hj)
  · intro k hk hfail hbefore
    show (spnPoll polls ti 0 mt).result = none
    exact spnPoll_fail polls ti mt 0 k hk (by simpa using hfail)
      (by intro j hj; simpa using hbefore j hj)

/-- C5 witness: a run whose first check is pending and whose second reports
success returns the archive URL after two checks and one wait. -/
theorem c5_retrieve_spn_url_poller_witness :
    (1 < 40) ∧
    ((fun n => if n = 0 then PollOutcome.ok ("pending").data [] []
        else PollOutcome.ok spn_success (("20250101").data) (("http://x").data)) 1
      = PollOutcome.ok spn_success (("20250101").data) (("http://x").data)) ∧
    retrieve_spn_url (some (("jid").data))
        (fun n => if n = 0 then PollOutcome.ok ("pending").data [] []
          else PollOutcome.ok spn_success (("20250101").data) (("http://x").data)) 5 40
      = ⟨some (spn_archive_url (("20250101").data) (("http://x").data)), 2, 5⟩ :=
  ⟨by decide, by decide,
    (c5_retrieve_spn_url_poller (some (("jid").data))
      (fun n => if n = 0 then PollOutcome.ok ("pending").data [] []
        else PollOutcome.ok spn_success (("20250101").data) (("http://x").data))
      5 40 (("jid").data)).2.2.1 1 (("20250101").data) (("http://x").data)
      (by decide) (by decide) (by decide)⟩

/-! ## Claim C9 -/

/-- C9: an article_limit of 0 (Python-falsy) means no limit in fetch_articles
— every feed entry becomes a row — while a positive limit n yields exactly
the first min(n, number-of-entries) entries in feed order (the limited run is
a prefix of the unlimited run); the same falsy-means-unlimited convention
holds for question_limit in load_questions (None and 0 are no limit, positive
n takes the first n questions) and for claim_limit in load_claims (None and 0
are no limit, positive n takes the first n filtered claims). -/
theorem c9_falsy_limit_means_unlimited (entries : List FeedEntry) (st : Bool)
    (qs : List Str) (docs : List ClaimDoc) (lang : Str) :
    ((fetch_articles entries st 0).length = entries.length ∧
      (∀ n, 0 < n →
        fetch_articles entries st n = (fetch_articles entries st 0).take n ∧
        (fetch_articles entries st n).length = min n entries.length)) ∧
    (LongTermQ.load_questions qs none = qs ∧
      LongTermQ.load_questions qs (some 0) = qs ∧
      (∀ n, 0 < n → LongTermQ.load_questions qs (some n) = qs.take n)) ∧
    (FactCheckQ.load_claims docs lang (some 0) = FactCheckQ.load_claims docs lang none ∧
      (FactCheckQ.load_claims docs lang none).length
        = (docs.filter (fun d => decide (d.predicted_lang = lang))).length ∧
      (∀ n, 0 < n → FactCheckQ.load_claims docs lang (some n)
        = (FactCheckQ.load_claims docs lang none).take n)) := by
  refine ⟨⟨?_, ?_⟩, ⟨rfl, by simp [LongTermQ.load_questions], ?_⟩, ⟨?_, ?_, ?_⟩⟩
  · cases st <;> simp [fetch_articles]
  · intro n hn
    have hne : n ≠ 0 := by omega
    constructor
    · cases st <;> simp [fetch_articles, if_pos hne, List.map_take]
    · cases st <;> simp [fetch_articles, if_pos hne, List.length_take]
  · intro n hn
    have hne : n ≠ 0 := by omega
    simp [LongTermQ.load_questions, if_pos hne]
  · simp [FactCheckQ.load_claims]
  · simp [FactCheckQ.load_claims]
  · intro n hn
    have hne : n ≠ 0 := by omega
    simp [FactCheckQ.load_claims, if_pos hne, List.map_take]

/-- C9 witness: with two feed entries and limit 1, the run is the one-element
prefix of the unlimited run; load_questions with limit 1 takes the first
question. -/
theorem c9_falsy_limit_means_unlimited_witness :
    (0 < 1) ∧
    (fetch_articles [⟨("t1").data, ("u1").data⟩, ⟨("t2").data, ("u2").data⟩] true 1
        = (fetch_articles [⟨("t1").data, ("u1").data⟩, ⟨("t2").data, ("u2").data⟩]
            true 0).take 1 ∧
      (fetch_articles [⟨("t1").data, ("u1").data⟩, ⟨("t2").data, ("u2").data⟩]
          true 1).length
        = min 1 [(⟨("t1").data, ("u1").data⟩ : FeedEntry),
            ⟨("t2").data, ("u2").data⟩].length) ∧
    LongTermQ.load_questions [("q1").data, ("q2").data] (some 1)
      = [("q1").data, ("q2").data].take 1 :=
  ⟨by decide,
    (c9_falsy_limit_means_unlimited
      [⟨("t1").data, ("u1").data⟩, ⟨("t2").data, ("u2").data⟩] true
      [("q1").data, ("q2").data] [] []).1.2 1 (by decide),
    (c9_falsy_limit_means_unlimited
      [⟨("t1").data, ("u1").data⟩, ⟨("t2").data, ("u2").data⟩] true
      [("q1").data, ("q2").data] [] []).2.1.2.2 1 (by decide)⟩

/-! ## Dict-assignment lemmas (claim C10) -/

theorem any_key_eq_false {r : Row} {k : Str} (h : getCol? r k = none) :
    r.any (fun p => decide (p.1 = k)) = false := by
  unfold getCol? at h
  cases hf : r.find? (fun p => decide (p.1 = k)) with
  | none =>
    rw [List.any_eq_false]
    intro x hx
    exact List.find?_eq_none.mp hf x hx
  | some p =>
    rw [hf] at h
    simp at h

theorem setCol_not_mem {r : Row} {k : Str} (h : r.any (fun p => decide (p.1 = k)) = false)
    (v : Str) : setCol r k v = r ++ [(k, v)] := by
  simp [setCol, h]

theorem rowKeys_append_single (r : Row) (k v : Str) :
    rowKeys (r ++ [(k, v)]) = rowKeys r ++ [k] := by
  simp [rowKeys]

theorem getCol?_append_single_ne (r : Row) (k v : Str) {x : Str} (hx : x ≠ k) :
    getCol? (r ++ [(k, v)]) x = getCol? r x := by
  unfold getCol?
  rw [List.find?_append]
  cases hf : r.find? (fun p => decide (p.1 = x)) with
  | none =>
    have hkx : (decide ((k, v).1 = x)) = false := decide_eq_false (fun he => hx he.symm)
    simp [Option.or, List.find?, hkx]
  | some p =>
    simp [Option.or]

theorem getCol?_append_single_self (r : Row) (k v : Str) (h : getCol? r k = none) :
    getCol? (r ++ [(k, v)]) k = some v := by
  unfold getCol? at h ⊢
  rw [List.find?_append]
  cases hf : r.find? (fun p => decide (p.1 = k)) with
  | none =>
    simp [Option.or, List.find?]
  | some p =>
    rw [hf] at h
    simp at h

/-! ## Claim C10 -/

/-- C10: add_questions in factcheckquestions.py does not mutate its input
(it assigns into `df.copy()`, embedded here as a pure function of the input)
and returns a dataframe with the same number of rows in which each row keeps
every original column's value unchanged and gains exactly one new column
"question", appended last, whose value is the fact-check prompt concatenated
with that row's "claim" value — provided every row has a "claim" column and
no row already has a "question" column. -/
theorem c10_add_questions_appends_question_column (prompt : Str) (df : List Row)
    (hclaim : ∀ r ∈ df, ∃ c, getCol? r claimKey = some c)
    (hnoq : ∀ r ∈ df, getCol? r questionKey = none) :
    ∃ out, FactCheckQ.add_questions prompt df = some out ∧
      out.length = df.length ∧
      (∀ (i : Nat) (r : Row), df[i]? = some r → ∃ c,
        getCol? r claimKey = some c ∧
        out[i]? = some (setCol r questionKey (prompt ++ c)) ∧
        rowKeys (setCol r questionKey (prompt ++ c)) = rowKeys r ++ [questionKey] ∧
        getCol? (setCol r questionKey (prompt ++ c)) questionKey = some (prompt ++ c) ∧
        (∀ x, x ≠ questionKey →
          getCol? (setCol r questionKey (prompt ++ c)) x = getCol? r x)) := by
  induction df with
  | nil =>
    refine ⟨[], rfl, rfl, ?_⟩
    intro i r hir
    simp at hir
  | cons r rs ih =>
    obtain ⟨c, hc⟩ := hclaim r (List.mem_cons_self r rs)
    obtain ⟨out, hout, hlen, hrows⟩ :=
      ih (fun x hx => hclaim x (List.mem_cons_of_mem r hx))
        (fun x hx => hnoq x (List.mem_cons_of_mem r hx))
    refine ⟨setCol r questionKey (prompt ++ c) :: out, ?_, by simpa using hlen, ?_⟩
    · simp only [FactCheckQ.add_questions, hc, hout]
    · intro i r' hir
      cases i with
      | zero =>
        simp only [List.getElem?_cons_zero] at hir
        cases hir
        have hq := hnoq r (List.mem_cons_self r rs)
        have hany := any_key_eq_false hq
        have hset := setCol_not_mem hany (prompt ++ c)
        refine ⟨c, hc, by simp, ?_, ?_, ?_⟩
        · rw [hset, rowKeys_append_single]
        · rw [hset]
          exact getCol?_append_single_self r questionKey (prompt ++ c) hq
        · intro x hx
          rw [hset]
          exact getCol?_append_single_ne r questionKey (prompt ++ c) hx
      | succ n =>
        simp only [List.getElem?_cons_succ] at hir
        simp only [List.getElem?_cons_succ]
        exact hrows n r' hir

/-- C10 witness: a one-row dataframe with a claim gains exactly the question
column with the default prompt prepended. -/
theorem c10_add_questions_appends_question_column_witness :
    (∀ r ∈ [[(claimKey, ("the sky is green").data)]], ∃ c, getCol? r claimKey = some c) ∧
    (∃ out, FactCheckQ.add_questions FactCheckQ.factcheck_prompt_default
        [[(claimKey, ("the sky is green").data)]] = some out ∧
      out.length = [[(claimKey, ("the sky is green").data)]].length ∧
      (∀ (i : Nat) (r : Row), [[(claimKey, ("the sky is green").data)]][i]? = some r → ∃ c,
        getCol? r claimKey = some c ∧
        out[i]? = some (setCol r questionKey (FactCheckQ.factcheck_prompt_default ++ c)) ∧
        rowKeys (setCol r questionKey (FactCheckQ.factcheck_prompt_default ++ c))
          = rowKeys r ++ [questionKey] ∧
        getCol? (setCol r questionKey (FactCheckQ.factcheck_prompt_default ++ c))
          questionKey = some (FactCheckQ.factcheck_prompt_default ++ c) ∧
        (∀ x, x ≠ questionKey →
          getCol? (setCol r questionKey (FactCheckQ.factcheck_prompt_default ++ c)) x
            = getCol? r x))) :=
  ⟨fun r hr => by
      simp only [List.mem_singleton] at hr
      exact hr ▸ ⟨("the sky is green").data, rfl⟩,
    c10_add_questions_appends_question_column FactCheckQ.factcheck_prompt_default
      [[(claimKey, ("the sky is green").data)]]
      (fun r hr => by
        simp only [List.mem_singleton] at hr
        exact hr ▸ ⟨("the sky is green").data, rfl⟩)
      (fun r hr => by
        simp only [List.mem_singleton] at hr
        exact hr ▸ rfl)⟩

/-! ## Lock-machine lemmas (claim C7) -/

theorem getElem?_set_cases {l : List TaskState} {i j : Nat} {a u : TaskState}
    (h : (l.set i a)[j]? = some u) :
    (i = j ∧ u = a) ∨ (i ≠ j ∧ l[j]? = some u) := by
  rw [List.getElem?_set] at h
  by_cases hij : i = j
  · rw [if_pos hij] at h
    by_cases hlt : i < l.length
    · rw [if_pos hlt] at h
      exact Or.inl ⟨hij, (Option.some.inj h).symm⟩
    · rw [if_neg hlt] at h
      exact absurd h (by simp)
  · rw [if_neg hij] at h
    exact Or.inr ⟨hij, h⟩

theorem mutex_preserved_of_set_non_request {s : List TaskState} {i : Nat}
    {v : TaskState} (hv : v.phase ≠ Phase.inRequest) (hinv : MutexInv s) :
    MutexInv (s.set i v) := by
  intro a b ta tb hab ha hb hpa hpb
  rcases getElem?_set_cases ha with ⟨rfl, rfl⟩ | ⟨_, ha'⟩
  · exact absurd hpa hv
  · rcases getElem?_set_cases hb with ⟨rfl, rfl⟩ | ⟨_, hb'⟩
    · exact absurd hpb hv
    · exact hinv a b ta tb hab ha' hb' hpa hpb

theorem counter_preserved_of_set_non_counter {s : List TaskState} {i : Nat}
    {v : TaskState} (hv : v.phase ≠ Phase.inCounter) (hinv : CounterMutexInv s) :
    CounterMutexInv (s.set i v) := by
  intro a b ta tb hab ha hb hpa hpb
  rcases getElem?_set_cases ha with ⟨rfl, rfl⟩ | ⟨_, ha'⟩
  · exact absurd hpa hv
  · rcases getElem?_set_cases hb with ⟨rfl, rfl⟩ | ⟨_, hb'⟩
    · exact absurd hpb hv
    · exact hinv a b ta tb hab ha' hb' hpa hpb

theorem step_preserves_mutex {maxW : Nat} {s s' : List TaskState}
    (hstep : Step maxW s s') (hinv : MutexInv s) : MutexInv s' := by
  cases hstep with
  | start i t ht hp hw =>
    exact mutex_preserved_of_set_non_request (by simp) hinv
  | acquireBot i t ht hp hfree =>
    intro a b ta tb hab ha hb hpa hpb
    rcases getElem?_set_cases ha with ⟨rfl, rfl⟩ | ⟨hai, ha'⟩
    · rcases getElem?_set_cases hb with ⟨hib, rfl⟩ | ⟨hbi, hb'⟩
      · exact absurd hib hab
      · exact fun hbots => (hfree b tb hb' hpb) hbots.symm
    · rcases getElem?_set_cases hb with ⟨rfl, rfl⟩ | ⟨hbi, hb'⟩
      · exact hfree a ta ha' hpa
      · exact hinv a b ta tb hab ha' hb' hpa hpb
  | releaseBot i t ht hp =>
    exact mutex_preserved_of_set_non_request (by simp) hinv
  | acquireCounter i t ht hp hfree =>
    exact mutex_preserved_of_set_non_request (by simp) hinv
  | releaseCounter i t ht hp =>
    exact mutex_preserved_of_set_non_request (by simp) hinv

theorem step_preserves_counter {maxW : Nat} {s s' : List TaskState}
    (hstep : Step maxW s s') (hinv : CounterMutexInv s) : CounterMutexInv s' := by
  cases hstep with
  | start i t ht hp hw =>
    exact counter_preserved_of_set_non_counter (by simp) hinv
  | acquireBot i t ht hp hfree =>
    exact counter_preserved_of_set_non_counter (by simp) hinv
  | releaseBot i t ht hp =>
    exact counter_preserved_of_set_non_counter (by simp) hinv
  | acquireCounter i t ht hp hfree =>
    intro a b ta tb hab ha hb hpa hpb
    rcases getElem?_set_cases ha with ⟨rfl, rfl⟩ | ⟨hai, ha'⟩
    · rcases getElem?_set_cases hb with ⟨hib, rfl⟩ | ⟨hbi, hb'⟩
      · exact hab hib
      · exact hfree b tb hb' hpb
    · exact hfree a ta ha' hpa
  | releaseCounter i t ht hp =>
    exact counter_preserved_of_set_non_counter (by simp) hinv

theorem activeCount_set {s : List TaskState} {i : Nat} {t : TaskState}
    (ht : s[i]? = some t) (v : TaskState) :
    activeCount (s.set i v) + (if isActive t.phase then 1 else 0)
      = activeCount s + (if isActive v.phase then 1 else 0) := by
  obtain ⟨hlt, hget⟩ := List.getElem?_eq_some.mp ht
  unfold activeCount
  rw [List.countP_set _ _ _ _ hlt, hget]
  by_cases hA : isActive t.phase = true
  · have hpos : 0 < s.countP (fun u => isActive u.phase) :=
      List.countP_pos_iff.mpr ⟨t, by rw [← hget]; exact List.getElem_mem hlt, hA⟩
    by_cases hv : isActive v.phase = true <;> simp [hA, hv] <;> try omega
  · by_cases hv : isActive v.phase = true <;> simp [hA, hv]

theorem step_active_le {maxW : Nat} {s s' : List TaskState}
    (hstep : Step maxW s s') (h : activeCount s ≤ maxW) : activeCount s' ≤ maxW := by
  cases hstep with
  | start i t ht hp hw =>
    have heq := activeCount_set ht ⟨t.bot, Phase.waitingBot⟩
    rw [hp] at heq
    simp [isActive] at heq
    omega
  | acquireBot i t ht hp hfree =>
    have heq := activeCount_set ht ⟨t.bot, Phase.inRequest⟩
    rw [hp] at heq
    simp [isActive] at heq
    omega
  | releaseBot i t ht hp =>
    have heq := activeCount_set ht ⟨t.bot, Phase.waitingCounter⟩
    rw [hp] at heq
    simp [isActive] at heq
    omega
  | acquireCounter i t ht hp hfree =>
    have heq := activeCount_set ht ⟨t.bot, Phase.inCounter⟩
    rw [hp] at heq
    simp [isActive] at heq
    omega
  | releaseCounter i t ht hp =>
    have heq := activeCount_set ht ⟨t.bot, Phase.done⟩
    rw [hp] at heq
    simp [isActive] at heq
    omega

theorem initTasks_phase {bots : List Str} : ∀ u ∈ initTasks bots, u.phase = Phase.pending := by
  intro u hu
  simp only [initTasks, List.mem_map] at hu
  obtain ⟨b, _, rfl⟩ := hu
  rfl

theorem activeCount_initTasks (bots : List Str) : activeCount (initTasks bots) = 0 := by
  unfold activeCount
  rw [List.countP_eq_zero]
  intro u hu h
  rw [initTasks_phase u hu] at h
  simp [isActive] at h

theorem mutexInv_initTasks (bots : List Str) : MutexInv (initTasks bots) := by
  intro a b ta tb hab ha hb hpa hpb
  have hpend := initTasks_phase ta (List.getElem?_mem ha)
  rw [hpa] at hpend
  exact Phase.noConfusion hpend

theorem counterMutexInv_initTasks (bots : List Str) : CounterMutexInv (initTasks bots) := by
  intro a b ta tb hab ha hb hpa hpb
  have hpend := initTasks_phase ta (List.getElem?_mem ha)
  rw [hpa] at hpend
  exact Phase.noConfusion hpend

theorem reachable_invariants (maxW : Nat) (bots : List Str) :
    ∀ s, Reachable maxW bots s →
      MutexInv s ∧ CounterMutexInv s ∧ activeCount s ≤ maxW := by
  intro s h
  unfold Reachable at h
  induction h with
  | refl =>
    refine ⟨mutexInv_initTasks bots, counterMutexInv_initTasks bots, ?_⟩
    rw [activeCount_initTasks]
    exact Nat.zero_le maxW
  | tail hsteps hstep ih =>
    exact ⟨step_preserves_mutex hstep ih.1, step_preserves_counter hstep ih.2.1,
      step_active_le hstep ih.2.2⟩

theorem lock_keys_foldl_spec :
    ∀ (bots acc : List Str), acc.Nodup →
      (bots.foldl (fun a b => if b ∈ a then a else a ++ [b]) acc).Nodup ∧
      (∀ x, x ∈ bots.foldl (fun a b => if b ∈ a then a else a ++ [b]) acc ↔
        x ∈ acc ∨ x ∈ bots) := by
  intro bots
  induction bots with
  | nil =>
    intro acc hacc
    refine ⟨hacc, fun x => ?_⟩
    simp
  | cons b bs ih =>
    intro acc hacc
    rw [List.foldl_cons]
    by_cases hmem : b ∈ acc
    · rw [if_pos hmem]
      obtain ⟨h1, h2⟩ := ih acc hacc
      refine ⟨h1, fun x => ?_⟩
      rw [h2 x, List.mem_cons]
      constructor
      · rintro (hx | hx)
        · exact Or.inl hx
        · exact Or.inr (Or.inr hx)
      · rintro (hx | rfl | hx)
        · exact Or.inl hx
        · exact Or.inl hmem
        · exact Or.inr hx
    · rw [if_neg hmem]
      have hacc' : (acc ++ [b]).Nodup := by
        rw [← List.concat_eq_append]
        exact List.Nodup.concat hmem hacc
      obtain ⟨h1, h2⟩ := ih (acc ++ [b]) hacc'
      refine ⟨h1, fun x => ?_⟩
      rw [h2 x]
      simp only [List.mem_append, List.mem_cons, List.not_mem_nil, or_false]
      tauto

theorem lock_keys_nodup (bots : List Str) : (lock_keys bots).Nodup :=
  (lock_keys_foldl_spec bots [] List.nodup_nil).1

theorem countP_eq_one_of_nodup_mem {l : List Str} {a : Str} (hnd : l.Nodup)
    (ha : a ∈ l) : l.countP (fun x => decide (x = a)) = 1 := by
  induction l with
  | nil => simp at ha
  | cons y ys ih =>
    rw [List.countP_cons]
    rcases List.mem_cons.mp ha with rfl | ha2
    · have hnm : a ∉ ys := (List.nodup_cons.mp hnd).1
      have hz : ys.countP (fun x => decide (x = a)) = 0 :=
        List.countP_eq_zero.mpr (by
          intro u hu hdu
          exact hnm (of_decide_eq_true hdu ▸ hu))
      simp [hz]
    · have hy : y ≠ a := by
        rintro rfl
        exact (List.nodup_cons.mp hnd).1 ha2
      rw [ih (List.nodup_cons.mp hnd).2 ha2]
      simp [hy]

theorem mem_lock_keys (bots : List Str) : ∀ x, x ∈ lock_keys bots ↔ x ∈ bots := by
  intro x
  have h := (lock_keys_foldl_spec bots [] List.nodup_nil).2 x
  simpa [lock_keys] using h

/-! ## Claim C7 -/

/-- C7: in every run of ask_questions the lock dict has exactly one
mutual-exclusion lock per distinct chatbot name; in every reachable state of
the run no two tasks with the same chatbot name are inside the request
section at once (the per-chatbot lock serializes them) while at most
max_workers tasks are active at once; the counter is protected by a separate
single lock held by at most one task at a time; and requests to different
chatbots can genuinely be in flight simultaneously (witnessed by a reachable
state of a two-chatbot run with both tasks inside their requests). -/
theorem c7_per_chatbot_lock_mutual_exclusion (maxW : Nat) (bots : List Str) :
    ((∀ b, b ∈ lock_keys bots ↔ b ∈ bots) ∧
      (∀ b, b ∈ bots → (lock_keys bots).countP (fun x => decide (x = b)) = 1)) ∧
    (∀ s, Reachable maxW bots s →
      MutexInv s ∧ CounterMutexInv s ∧ activeCount s ≤ maxW) ∧
    (∃ s, Reachable 2 [("perplexity").data, ("openai").data] s ∧
      ∃ t0 t1, s[0]? = some t0 ∧ s[1]? = some t1 ∧
        t0.phase = Phase.inRequest ∧ t1.phase = Phase.inRequest ∧
        t0.bot ≠ t1.bot) := by
  refine ⟨⟨mem_lock_keys bots, ?_⟩, reachable_invariants maxW bots, ?_⟩
  · intro b hb
    exact countP_eq_one_of_nodup_mem (lock_keys_nodup bots) ((mem_lock_keys bots b).mpr hb)
  · have hbots : ∀ (st : List TaskState) (bb : Str),
        (∀ u ∈ st, u.phase = Phase.inRequest → u.bot ≠ bb) →
        ∀ (j : Nat) (u : TaskState), st[j]? = some u →
          u.phase = Phase.inRequest → u.bot ≠ bb :=
      fun st bb hst j u hj => hst u (List.getElem?_mem hj)
    have h1 : Step 2 (initTasks [("perplexity").data, ("openai").data])
        [⟨("perplexity").data, Phase.waitingBot⟩, ⟨("openai").data, Phase.pending⟩] :=
      Step.start _ 0 ⟨("perplexity").data, Phase.pending⟩ rfl rfl (by decide)
    have h2 : Step 2
        [⟨("perplexity").data, Phase.waitingBot⟩, ⟨("openai").data, Phase.pending⟩]
        [⟨("perplexity").data, Phase.waitingBot⟩, ⟨("openai").data, Phase.waitingBot⟩] :=
      Step.start _ 1 ⟨("openai").data, Phase.pending⟩ rfl rfl (by decide)
    have h3 : Step 2
        [⟨("perplexity").data, Phase.waitingBot⟩, ⟨("openai").data, Phase.waitingBot⟩]
        [⟨("perplexity").data, Phase.inRequest⟩, ⟨("openai").data, Phase.waitingBot⟩] :=
      Step.acquireBot _ 0 ⟨("perplexity").data, Phase.waitingBot⟩ rfl rfl
        (hbots _ _ (by decide))
    have h4 : Step 2
        [⟨("perplexity").data, Phase.inRequest⟩, ⟨("openai").data, Phase.waitingBot⟩]
        [⟨("perplexity").data, Phase.inRequest⟩, ⟨("openai").data, Phase.inRequest⟩] :=
      Step.acquireBot _ 1 ⟨("openai").data, Phase.waitingBot⟩ rfl rfl
        (hbots _ _ (by decide))
    refine ⟨[⟨("perplexity").data, Phase.inRequest⟩, ⟨("openai").data, Phase.inRequest⟩],
      ?_, ⟨("perplexity").data, Phase.inRequest⟩, ⟨("openai").data, Phase.inRequest⟩,
      rfl, rfl, rfl, rfl, by decide⟩
    exact Relation.ReflTransGen.tail (Relation.ReflTransGen.tail
      (Relation.ReflTransGen.tail (Relation.ReflTransGen.tail
        Relation.ReflTransGen.refl h1) h2) h3) h4

/-- C7 witness: the lock-key fact at a concrete chatbot list and the
invariants at the (trivially reachable) initial state of a run. -/
theorem c7_per_chatbot_lock_mutual_exclusion_witness :
    (("openai").data ∈ lock_keys [("openai").data] ↔
      ("openai").data ∈ [("openai").data]) ∧
    (MutexInv (initTasks [("openai").data]) ∧
      CounterMutexInv (initTasks [("openai").data]) ∧
      activeCount (initTasks [("openai").data]) ≤ 10) :=
  ⟨(c7_per_chatbot_lock_mutual_exclusion 10 [("openai").data]).1.1 (("openai").data),
    (c7_per_chatbot_lock_mutual_exclusion 10 [("openai").data]).2.1
      (initTasks [("openai").data]) Relation.ReflTransGen.refl⟩

end AskMeTwice
